import Mathlib

/-!
# Verification of `generate_fontcache.py` (mplfccache)

Shallow embedding of the entry-normalization pipeline of
`src/generate_fontcache.py` (`generate_entries`, lines 20-75), together with
theorems settling the specification claims about it.

The external collaborators (the `fc-query`/`fc-list` subprocesses, matplotlib's
`FontEntry` container, JSON serialization, CLI) are outside the modelled core;
`generate_entries` is modelled as a function of the two lists of raw text lines
returned by the two subprocess invocations (`vendored_fonts.splitlines()` and
`system_fonts.splitlines()`, line 31).

Strings under parsing are modelled as `List Char`; Python string semantics
(`re.split` with a negative look-behind, `str.replace`, `int`, dict lookup,
`list.sort`) are embedded by the functions below, each matched to the source
line it translates.
-/

/-- Models `re.split(r"(?<!\\)" + d, s)` (source lines 33 and 35): split `s` at
every occurrence of the character `d` that is not immediately preceded by a
backslash in the original string.  `prev` is the character preceding the
current position (`none` at the start of the string), `acc` holds the current
field reversed. -/
def splitUnescapedAux (d : Char) (prev : Option Char) (acc : List Char) :
    List Char → List (List Char)
  | [] => [acc.reverse]
  | c :: cs =>
    if c = d ∧ prev ≠ some '\\' then
      acc.reverse :: splitUnescapedAux d (some c) [] cs
    else
      splitUnescapedAux d (some c) (c :: acc) cs

/-- Split a string at unescaped occurrences of `d`; models
`re.split(r"(?<!\\) ", line)` (line 33) and `re.split(r"(?<!\\),", ...)`
(line 35). -/
def splitUnescaped (d : Char) (s : List Char) : List (List Char) :=
  splitUnescapedAux d none [] s

/-- Models Python `s.replace("\\" + d, d)` (source lines 34 and 35): a single
left-to-right non-overlapping pass replacing each occurrence of the two-character
sequence backslash-`d` by `d`. -/
def replaceEscaped (d : Char) : List Char → List Char
  | '\\' :: c :: cs =>
    if c = d then c :: replaceEscaped d cs
    else '\\' :: replaceEscaped d (c :: cs)
  | c :: cs => c :: replaceEscaped d cs
  | [] => []

/-- Numeric value of a list of decimal digit characters. -/
def digitsVal (s : List Char) : ℕ :=
  s.foldl (fun n c => 10 * n + (c.toNat - 48)) 0

/-- Models Python `int(s)` on the weight field (line 37): an optional sign
followed by a non-empty run of decimal digits parses to an integer, anything
else raises `ValueError` (modelled as `none`).  Whitespace-padded and
underscore-grouped forms accepted by Python do not occur in `fc` weight
fields and are not modelled. -/
def parsePyInt (s : List Char) : Option ℤ :=
  match s with
  | '-' :: rest =>
    if rest ≠ [] ∧ rest.all Char.isDigit then some (-(digitsVal rest : ℤ)) else none
  | '+' :: rest =>
    if rest ≠ [] ∧ rest.all Char.isDigit then some (digitsVal rest : ℤ) else none
  | _ =>
    if s ≠ [] ∧ s.all Char.isDigit then some (digitsVal s : ℤ) else none

/-- The slant lookup table of line 36:
`{"0": "normal", "100": "italic", "110": "oblique"}[fc_slant]`.
A key outside the table raises `KeyError` (modelled as `none`). -/
def slantTable (s : List Char) : Option String :=
  if s = "0".data then some "normal"
  else if s = "100".data then some "italic"
  else if s = "110".data then some "oblique"
  else none

/-- The width lookup table of lines 58-68. A key outside the table raises
`KeyError` (modelled as `none`). -/
def stretchTable (s : List Char) : Option String :=
  if s = "50".data then some "ultra-condensed"
  else if s = "63".data then some "extra-condensed"
  else if s = "75".data then some "condensed"
  else if s = "87".data then some "semi-condensed"
  else if s = "100".data then some "normal"
  else if s = "113".data then some "semi-expanded"
  else if s = "125".data then some "expanded"
  else if s = "150".data then some "extra-expanded"
  else if s = "200".data then some "ultra-expanded"
  else none

/-- `fc_weights` list of line 41. Rationals, because the values feed
`np.interp`, which computes in (here exactly-representable) floating point. -/
def fc_weights : List ℚ := [0, 40, 50, 55, 75, 80, 100, 180, 200, 205, 210, 215]

/-- `css_weights` list of lines 42-43. -/
def css_weights : List ℚ :=
  [100, 200, 300, 350, 380, 400, 500, 600, 700, 800, 900, 1000]

/-- Models `np.interp(x, xp, fp)` for increasing `xp` (line 44): clamp to
`fp.head` below the first node and to `fp.getLast` above the last one, and
interpolate linearly inside each segment.  For the integer inputs and the
node tables of this program every intermediate float value is exactly
representable (all segment slopes are dyadic: 2.5, 10, 1.5, 4, 5, 1.25, 20),
so exact rational arithmetic is a faithful model of the NumPy computation. -/
def npInterp (x : ℚ) : List ℚ → List ℚ → ℚ
  | x1 :: x2 :: xps, y1 :: y2 :: fps =>
    if x ≤ x1 then y1
    else if x ≤ x2 then y1 + (x - x1) * (y2 - y1) / (x2 - x1)
    else npInterp x (x2 :: xps) (y2 :: fps)
  | [_], y1 :: _ => y1
  | _, _ => 0

/-- Models Python `int(q)` on a real value: truncation toward zero,
`q.num.tdiv q.den`. -/
def pyInt (q : ℚ) : ℤ := q.num.tdiv q.den

/-- Line 44: `weight = int(np.interp(fc_weight, fc_weights, css_weights) + .5)`. -/
def fcWeightToCss (w : ℤ) : ℤ :=
  pyInt (npInterp (w : ℚ) fc_weights css_weights + 1/2)

/-- The normalized output record (matplotlib's `FontEntry`, constructed at
line 72 with positional arguments `(file, family, style, variant, weight,
stretch, size)`; its first attribute is called `fname`, the sort key of
line 74, and equals `file`). -/
structure FontEntry where
  file : String
  family : String
  style : String
  variant : String
  weight : ℤ
  stretch : String
  size : String
deriving DecidableEq

/-- The fatal Python exceptions the per-line processing can raise:
`ValueError` from unpacking a split that did not produce exactly 5 fields
(lines 32-33), `KeyError` from the slant or width dict lookup (lines 36, 58),
`ValueError` from `int()` on a non-numeric weight field (line 37). -/
inductive PyError where
  | unpackMismatch (fieldCount : ℕ)
  | keyError (key : List Char)
  | intValueError (s : List Char)
deriving DecidableEq

/-- The body of the `for` loop of lines 31-73 for one raw line: split into
exactly five fields (else fatal), unescape spaces in the file field (line 34),
unescape spaces in the family field and split it on unescaped commas
(line 35), look up slant (line 36), parse and map the weight
(lines 37, 44), look up width (lines 58-68), and emit one entry per family
(lines 69-73).  The error precedence follows the source's evaluation order. -/
def processLine (line : List Char) : Except PyError (List FontEntry) :=
  match splitUnescaped ' ' line with
  | [fc_file, fc_family, fc_slant, fc_weight, fc_width] =>
    let file := replaceEscaped ' ' fc_file
    let families := splitUnescaped ',' (replaceEscaped ' ' fc_family)
    match slantTable fc_slant with
    | none => .error (.keyError fc_slant)
    | some style =>
      match parsePyInt fc_weight with
      | none => .error (.intValueError fc_weight)
      | some rawWeight =>
        match stretchTable fc_width with
        | none => .error (.keyError fc_width)
        | some stretch =>
          .ok (families.map fun fam =>
            { file := file.asString
              family := fam.asString
              style := style
              variant := "normal"
              weight := fcWeightToCss rawWeight
              stretch := stretch
              size := "scalable" })
  | fields => .error (.unpackMismatch fields.length)

/-- The whole loop of lines 31-73: process the lines in order, concatenating
the per-line entry lists (`entries.extend`, line 71); the first fatal
exception aborts the run. -/
def processLines : List (List Char) → Except PyError (List FontEntry)
  | [] => .ok []
  | l :: ls =>
    match processLine l with
    | .error e => .error e
    | .ok es =>
      match processLines ls with
      | .error e => .error e
      | .ok rest => .ok (es ++ rest)

/-- The sort key relation of line 74: `key=lambda entry: entry.fname`, where
`fname` is the entry's file path; Python compares strings lexicographically
by code point. -/
def entryLE (a b : FontEntry) : Prop := a.file ≤ b.file

instance : DecidableRel entryLE :=
  fun a b => inferInstanceAs (Decidable (a.file ≤ b.file))

instance : IsTotal FontEntry entryLE := ⟨fun a b => le_total a.file b.file⟩

instance : IsTrans FontEntry entryLE := ⟨fun _ _ _ h1 h2 => le_trans h1 h2⟩

/-- Line 74: `entries.sort(key=lambda entry: entry.fname)`.  Python's
`list.sort` is a stable sort by the key; any stable sort computes the same
list, so it is embedded as stable insertion sort. -/
def sortEntries (es : List FontEntry) : List FontEntry :=
  es.insertionSort entryLE

/-- `generate_entries` (lines 20-75) as a function of the raw text lines
returned by the two subprocess invocations: the `fc-query` lines over the
bundled fonts and the `fc-list` lines over the system catalog are
concatenated in this order (line 31), processed, and sorted. -/
def generate_entries (vendored_lines system_lines : List (List Char)) :
    Except PyError (List FontEntry) :=
  match processLines (vendored_lines ++ system_lines) with
  | .error e => .error e
  | .ok es => .ok (sortEntries es)

/-! ## The weight interpolation, segment by segment -/

theorem npInterp_seg_left (x : ℚ) (h : x ≤ 0) :
    npInterp x fc_weights css_weights = 100 := by
  simp only [fc_weights, css_weights]
  rw [npInterp, if_pos h]

theorem npInterp_seg1 (x : ℚ) (h0 : ¬x ≤ 0) (h1 : x ≤ 40) :
    npInterp x fc_weights css_weights =
      100 + (x - 0) * (200 - 100) / (40 - 0) := by
  simp only [fc_weights, css_weights]
  rw [npInterp, if_neg h0, if_pos h1]

theorem npInterp_seg2 (x : ℚ) (h0 : ¬x ≤ 40) (h1 : x ≤ 50) :
    npInterp x fc_weights css_weights =
      200 + (x - 40) * (300 - 200) / (50 - 40) := by
  have a0 : ¬x ≤ 0 := fun hc => h0 (by linarith)
  simp only [fc_weights, css_weights]
  rw [npInterp, if_neg a0, if_neg h0, npInterp, if_neg h0, if_pos h1]

theorem npInterp_seg3 (x : ℚ) (h0 : ¬x ≤ 50) (h1 : x ≤ 55) :
    npInterp x fc_weights css_weights =
      300 + (x - 50) * (350 - 300) / (55 - 50) := by
  have a0 : ¬x ≤ 0 := fun hc => h0 (by linarith)
  have a1 : ¬x ≤ 40 := fun hc => h0 (by linarith)
  simp only [fc_weights, css_weights]
  rw [npInterp, if_neg a0, if_neg a1, npInterp, if_neg a1, if_neg h0,
      npInterp, if_neg h0, if_pos h1]

theorem npInterp_seg4 (x : ℚ) (h0 : ¬x ≤ 55) (h1 : x ≤ 75) :
    npInterp x fc_weights css_weights =
      350 + (x - 55) * (380 - 350) / (75 - 55) := by
  have a0 : ¬x ≤ 0 := fun hc => h0 (by linarith)
  have a1 : ¬x ≤ 40 := fun hc => h0 (by linarith)
  have a2 : ¬x ≤ 50 := fun hc => h0 (by linarith)
  simp only [fc_weights, css_weights]
  rw [npInterp, if_neg a0, if_neg a1, npInterp, if_neg a1, if_neg a2,
      npInterp, if_neg a2, if_neg h0, npInterp, if_neg h0, if_pos h1]

theorem npInterp_seg5 (x : ℚ) (h0 : ¬x ≤ 75) (h1 : x ≤ 80) :
    npInterp x fc_weights css_weights =
      380 + (x - 75) * (400 - 380) / (80 - 75) := by
  have a0 : ¬x ≤ 0 := fun hc => h0 (by linarith)
  have a1 : ¬x ≤ 40 := fun hc => h0 (by linarith)
  have a2 : ¬x ≤ 50 := fun hc => h0 (by linarith)
  have a3 : ¬x ≤ 55 := fun hc => h0 (by linarith)
  simp only [fc_weights, css_weights]
  rw [npInterp, if_neg a0, if_neg a1, npInterp, if_neg a1, if_neg a2,
      npInterp, if_neg a2, if_neg a3, npInterp, if_neg a3, if_neg h0,
      npInterp, if_neg h0, if_pos h1]

theorem npInterp_seg6 (x : ℚ) (h0 : ¬x ≤ 80) (h1 : x ≤ 100) :
    npInterp x fc_weights css_weights =
      400 + (x - 80) * (500 - 400) / (100 - 80) := by
  have a0 : ¬x ≤ 0 := fun hc => h0 (by linarith)
  have a1 : ¬x ≤ 40 := fun hc => h0 (by linarith)
  have a2 : ¬x ≤ 50 := fun hc => h0 (by linarith)
  have a3 : ¬x ≤ 55 := fun hc => h0 (by linarith)
  have a4 : ¬x ≤ 75 := fun hc => h0 (by linarith)
  simp only [fc_weights, css_weights]
  rw [npInterp, if_neg a0, if_neg a1, npInterp, if_neg a1, if_neg a2,
      npInterp, if_neg a2, if_neg a3, npInterp, if_neg a3, if_neg a4,
      npInterp, if_neg a4, if_neg h0, npInterp, if_neg h0, if_pos h1]

theorem npInterp_seg7 (x : ℚ) (h0 : ¬x ≤ 100) (h1 : x ≤ 180) :
    npInterp x fc_weights css_weights =
      500 + (x - 100) * (600 - 500) / (180 - 100) := by
  have a0 : ¬x ≤ 0 := fun hc => h0 (by linarith)
  have a1 : ¬x ≤ 40 := fun hc => h0 (by linarith)
  have a2 : ¬x ≤ 50 := fun hc => h0 (by linarith)
  have a3 : ¬x ≤ 55 := fun hc => h0 (by linarith)
  have a4 : ¬x ≤ 75 := fun hc => h0 (by linarith)
  have a5 : ¬x ≤ 80 := fun hc => h0 (by linarith)
  simp only [fc_weights, css_weights]
  rw [npInterp, if_neg a0, if_neg a1, npInterp, if_neg a1, if_neg a2,
      npInterp, if_neg a2, if_neg a3, npInterp, if_neg a3, if_neg a4,
      npInterp, if_neg a4, if_neg a5, npInterp, if_neg a5, if_neg h0,
      npInterp, if_neg h0, if_pos h1]

theorem npInterp_seg8 (x : ℚ) (h0 : ¬x ≤ 180) (h1 : x ≤ 200) :
    npInterp x fc_weights css_weights =
      600 + (x - 180) * (700 - 600) / (200 - 180) := by
  have a0 : ¬x ≤ 0 := fun hc => h0 (by linarith)
  have a1 : ¬x ≤ 40 := fun hc => h0 (by linarith)
  have a2 : ¬x ≤ 50 := fun hc => h0 (by linarith)
  have a3 : ¬x ≤ 55 := fun hc => h0 (by linarith)
  have a4 : ¬x ≤ 75 := fun hc => h0 (by linarith)
  have a5 : ¬x ≤ 80 := fun hc => h0 (by linarith)
  have a6 : ¬x ≤ 100 := fun hc => h0 (by linarith)
  simp only [fc_weights, css_weights]
  rw [npInterp, if_neg a0, if_neg a1, npInterp, if_neg a1, if_neg a2,
      npInterp, if_neg a2, if_neg a3, npInterp, if_neg a3, if_neg a4,
      npInterp, if_neg a4, if_neg a5, npInterp, if_neg a5, if_neg a6,
      npInterp, if_neg a6, if_neg h0, npInterp, if_neg h0, if_pos h1]

theorem npInterp_seg9 (x : ℚ) (h0 : ¬x ≤ 200) (h1 : x ≤ 205) :
    npInterp x fc_weights css_weights =
      700 + (x - 200) * (800 - 700) / (205 - 200) := by
  have a0 : ¬x ≤ 0 := fun hc => h0 (by linarith)
  have a1 : ¬x ≤ 40 := fun hc => h0 (by linarith)
  have a2 : ¬x ≤ 50 := fun hc => h0 (by linarith)
  have a3 : ¬x ≤ 55 := fun hc => h0 (by linarith)
  have a4 : ¬x ≤ 75 := fun hc => h0 (by linarith)
  have a5 : ¬x ≤ 80 := fun hc => h0 (by linarith)
  have a6 : ¬x ≤ 100 := fun hc => h0 (by linarith)
  have a7 : ¬x ≤ 180 := fun hc => h0 (by linarith)
  simp only [fc_weights, css_weights]
  rw [npInterp, if_neg a0, if_neg a1, npInterp, if_neg a1, if_neg a2,
      npInterp, if_neg a2, if_neg a3, npInterp, if_neg a3, if_neg a4,
      npInterp, if_neg a4, if_neg a5, npInterp, if_neg a5, if_neg a6,
      npInterp, if_neg a6, if_neg a7, npInterp, if_neg a7, if_neg h0,
      npInterp, if_neg h0, if_pos h1]

theorem npInterp_seg10 (x : ℚ) (h0 : ¬x ≤ 205) (h1 : x ≤ 210) :
    npInterp x fc_weights css_weights =
      800 + (x - 205) * (900 - 800) / (210 - 205) := by
  have a0 : ¬x ≤ 0 := fun hc => h0 (by linarith)
  have a1 : ¬x ≤ 40 := fun hc => h0 (by linarith)
  have a2 : ¬x ≤ 50 := fun hc => h0 (by linarith)
  have a3 : ¬x ≤ 55 := fun hc => h0 (by linarith)
  have a4 : ¬x ≤ 75 := fun hc => h0 (by linarith)
  have a5 : ¬x ≤ 80 := fun hc => h0 (by linarith)
  have a6 : ¬x ≤ 100 := fun hc => h0 (by linarith)
  have a7 : ¬x ≤ 180 := fun hc => h0 (by linarith)
  have a8 : ¬x ≤ 200 := fun hc => h0 (by linarith)
  simp only [fc_weights, css_weights]
  rw [npInterp, if_neg a0, if_neg a1, npInterp, if_neg a1, if_neg a2,
      npInterp, if_neg a2, if_neg a3, npInterp, if_neg a3, if_neg a4,
      npInterp, if_neg a4, if_neg a5, npInterp, if_neg a5, if_neg a6,
      npInterp, if_neg a6, if_neg a7, npInterp, if_neg a7, if_neg a8,
      npInterp, if_neg a8, if_neg h0, npInterp, if_neg h0, if_pos h1]

theorem npInterp_seg11 (x : ℚ) (h0 : ¬x ≤ 210) (h1 : x ≤ 215) :
    npInterp x fc_weights css_weights =
      900 + (x - 210) * (1000 - 900) / (215 - 210) := by
  have a0 : ¬x ≤ 0 := fun hc => h0 (by linarith)
  have a1 : ¬x ≤ 40 := fun hc => h0 (by linarith)
  have a2 : ¬x ≤ 50 := fun hc => h0 (by linarith)
  have a3 : ¬x ≤ 55 := fun hc => h0 (by linarith)
  have a4 : ¬x ≤ 75 := fun hc => h0 (by linarith)
  have a5 : ¬x ≤ 80 := fun hc => h0 (by linarith)
  have a6 : ¬x ≤ 100 := fun hc => h0 (by linarith)
  have a7 : ¬x ≤ 180 := fun hc => h0 (by linarith)
  have a8 : ¬x ≤ 200 := fun hc => h0 (by linarith)
  have a9 : ¬x ≤ 205 := fun hc => h0 (by linarith)
  simp only [fc_weights, css_weights]
  rw [npInterp, if_neg a0, if_neg a1, npInterp, if_neg a1, if_neg a2,
      npInterp, if_neg a2, if_neg a3, npInterp, if_neg a3, if_neg a4,
      npInterp, if_neg a4, if_neg a5, npInterp, if_neg a5, if_neg a6,
      npInterp, if_neg a6, if_neg a7, npInterp, if_neg a7, if_neg a8,
      npInterp, if_neg a8, if_neg a9, npInterp, if_neg a9, if_neg h0,
      npInterp, if_neg h0, if_pos h1]

theorem npInterp_seg_right (x : ℚ) (h : ¬x ≤ 215) :
    npInterp x fc_weights css_weights = 1000 := by
  have a0 : ¬x ≤ 0 := fun hc => h (by linarith)
  have a1 : ¬x ≤ 40 := fun hc => h (by linarith)
  have a2 : ¬x ≤ 50 := fun hc => h (by linarith)
  have a3 : ¬x ≤ 55 := fun hc => h (by linarith)
  have a4 : ¬x ≤ 75 := fun hc => h (by linarith)
  have a5 : ¬x ≤ 80 := fun hc => h (by linarith)
  have a6 : ¬x ≤ 100 := fun hc => h (by linarith)
  have a7 : ¬x ≤ 180 := fun hc => h (by linarith)
  have a8 : ¬x ≤ 200 := fun hc => h (by linarith)
  have a9 : ¬x ≤ 205 := fun hc => h (by linarith)
  have a10 : ¬x ≤ 210 := fun hc => h (by linarith)
  simp only [fc_weights, css_weights]
  rw [npInterp, if_neg a0, if_neg a1, npInterp, if_neg a1, if_neg a2,
      npInterp, if_neg a2, if_neg a3, npInterp, if_neg a3, if_neg a4,
      npInterp, if_neg a4, if_neg a5, npInterp, if_neg a5, if_neg a6,
      npInterp, if_neg a6, if_neg a7, npInterp, if_neg a7, if_neg a8,
      npInterp, if_neg a8, if_neg a9, npInterp, if_neg a9, if_neg a10,
      npInterp, if_neg a10, if_neg h, npInterp]

/-! ## Bridging Python `int` truncation to the floor function -/

theorem pyInt_eq_floor (q : ℚ) (h : 0 ≤ q) : pyInt q = ⌊q⌋ := by
  rw [Rat.floor_def]
  exact Int.tdiv_eq_ediv (Rat.num_nonneg.mpr h) (Int.ofNat_nonneg q.den)

/-! ## The weight mapping as the specification states it

`interpSpec` and `cssWeightSpec` follow the SPEC's words (§4.2 "Weight
mapping"), for the refinement claim C1: piecewise-linear interpolation
between the twelve correspondence points, clamping outside [0, 215], and
rounding the interpolated value to the nearest integer with ties rounding
up (`roundHalfUp`). -/

/-- Round to the nearest integer, ties rounding up (the spec's rounding). -/
def roundHalfUp (q : ℚ) : ℤ := ⌊q + 1/2⌋

/-- The spec's piecewise-linear interpolation through (0,100), (40,200),
(50,300), (55,350), (75,380), (80,400), (100,500), (180,600), (200,700),
(205,800), (210,900), (215,1000), clamped to the nearest endpoint outside
the table's range. -/
def interpSpec (w : ℤ) : ℚ :=
  if w ≤ 0 then 100
  else if w ≤ 40 then 100 + ((w : ℚ) - 0) * (200 - 100) / (40 - 0)
  else if w ≤ 50 then 200 + ((w : ℚ) - 40) * (300 - 200) / (50 - 40)
  else if w ≤ 55 then 300 + ((w : ℚ) - 50) * (350 - 300) / (55 - 50)
  else if w ≤ 75 then 350 + ((w : ℚ) - 55) * (380 - 350) / (75 - 55)
  else if w ≤ 80 then 380 + ((w : ℚ) - 75) * (400 - 380) / (80 - 75)
  else if w ≤ 100 then 400 + ((w : ℚ) - 80) * (500 - 400) / (100 - 80)
  else if w ≤ 180 then 500 + ((w : ℚ) - 100) * (600 - 500) / (180 - 100)
  else if w ≤ 200 then 600 + ((w : ℚ) - 180) * (700 - 600) / (200 - 180)
  else if w ≤ 205 then 700 + ((w : ℚ) - 200) * (800 - 700) / (205 - 200)
  else if w ≤ 210 then 800 + ((w : ℚ) - 205) * (900 - 800) / (210 - 205)
  else if w ≤ 215 then 900 + ((w : ℚ) - 210) * (1000 - 900) / (215 - 210)
  else 1000

/-- The spec's CSS weight: interpolate, then round half-up. -/
def cssWeightSpec (w : ℤ) : ℤ := roundHalfUp (interpSpec w)

/-- Integer-arithmetic closed form of the same mapping (for computation and
monotonicity): on each segment, `⌊v + 1/2⌋` for
`v = y1 + (w - x1) * dy / dx` equals `(2 * dy * (w - x1) + dx * (2 * y1 + 1))
/ (2 * dx)` with Euclidean integer division. -/
def cssWeightInt (w : ℤ) : ℤ :=
  if w ≤ 0 then 100
  else if w ≤ 40 then (200 * (w - 0) + 40 * 201) / 80
  else if w ≤ 50 then (200 * (w - 40) + 10 * 401) / 20
  else if w ≤ 55 then (100 * (w - 50) + 5 * 601) / 10
  else if w ≤ 75 then (60 * (w - 55) + 20 * 701) / 40
  else if w ≤ 80 then (40 * (w - 75) + 5 * 761) / 10
  else if w ≤ 100 then (200 * (w - 80) + 20 * 801) / 40
  else if w ≤ 180 then (200 * (w - 100) + 80 * 1001) / 160
  else if w ≤ 200 then (200 * (w - 180) + 20 * 1201) / 40
  else if w ≤ 205 then (200 * (w - 200) + 5 * 1401) / 10
  else if w ≤ 210 then (200 * (w - 205) + 5 * 1601) / 10
  else if w ≤ 215 then (200 * (w - 210) + 5 * 1801) / 10
  else 1000

theorem fcWeightToCss_eq_spec (w : ℤ) : fcWeightToCss w = cssWeightSpec w := by
  unfold fcWeightToCss cssWeightSpec roundHalfUp
  by_cases h0 : w ≤ 0
  · rw [npInterp_seg_left _ (by exact_mod_cast h0), interpSpec, if_pos h0]
    exact pyInt_eq_floor _ (by norm_num)
  · have q0 : ¬(w : ℚ) ≤ 0 := fun hc => h0 (by exact_mod_cast hc)
    by_cases h1 : w ≤ 40
    · rw [npInterp_seg1 _ q0 (by exact_mod_cast h1),
          interpSpec, if_neg h0, if_pos h1]
      refine pyInt_eq_floor _ ?_
      have : ¬(w : ℚ) ≤ 0 := q0
      linarith [not_le.mp this]
    · have q1 : ¬(w : ℚ) ≤ 40 := fun hc => h1 (by exact_mod_cast hc)
      by_cases h2 : w ≤ 50
      · rw [npInterp_seg2 _ q1 (by exact_mod_cast h2),
            interpSpec, if_neg h0, if_neg h1, if_pos h2]
        refine pyInt_eq_floor _ ?_
        linarith [not_le.mp q1]
      · have q2 : ¬(w : ℚ) ≤ 50 := fun hc => h2 (by exact_mod_cast hc)
        by_cases h3 : w ≤ 55
        · rw [npInterp_seg3 _ q2 (by exact_mod_cast h3),
              interpSpec, if_neg h0, if_neg h1, if_neg h2, if_pos h3]
          refine pyInt_eq_floor _ ?_
          linarith [not_le.mp q2]
        · have q3 : ¬(w : ℚ) ≤ 55 := fun hc => h3 (by exact_mod_cast hc)
          by_cases h4 : w ≤ 75
          · rw [npInterp_seg4 _ q3 (by exact_mod_cast h4),
                interpSpec, if_neg h0, if_neg h1, if_neg h2, if_neg h3,
                if_pos h4]
            refine pyInt_eq_floor _ ?_
            linarith [not_le.mp q3]
          · have q4 : ¬(w : ℚ) ≤ 75 := fun hc => h4 (by exact_mod_cast hc)
            by_cases h5 : w ≤ 80
            · rw [npInterp_seg5 _ q4 (by exact_mod_cast h5),
                  interpSpec, if_neg h0, if_neg h1, if_neg h2, if_neg h3,
                  if_neg h4, if_pos h5]
              refine pyInt_eq_floor _ ?_
              linarith [not_le.mp q4]
            · have q5 : ¬(w : ℚ) ≤ 80 := fun hc => h5 (by exact_mod_cast hc)
              by_cases h6 : w ≤ 100
              · rw [npInterp_seg6 _ q5 (by exact_mod_cast h6),
                    interpSpec, if_neg h0, if_neg h1, if_neg h2, if_neg h3,
                    if_neg h4, if_neg h5, if_pos h6]
                refine pyInt_eq_floor _ ?_
                linarith [not_le.mp q5]
              · have q6 : ¬(w : ℚ) ≤ 100 := fun hc => h6 (by exact_mod_cast hc)
                by_cases h7 : w ≤ 180
                · rw [npInterp_seg7 _ q6 (by exact_mod_cast h7),
                      interpSpec, if_neg h0, if_neg h1, if_neg h2, if_neg h3,
                      if_neg h4, if_neg h5, if_neg h6, if_pos h7]
                  refine pyInt_eq_floor _ ?_
                  linarith [not_le.mp q6]
                · have q7 : ¬(w : ℚ) ≤ 180 := fun hc => h7 (by exact_mod_cast hc)
                  by_cases h8 : w ≤ 200
                  · rw [npInterp_seg8 _ q7 (by exact_mod_cast h8),
                        interpSpec, if_neg h0, if_neg h1, if_neg h2, if_neg h3,
                        if_neg h4, if_neg h5, if_neg h6, if_neg h7, if_pos h8]
                    refine pyInt_eq_floor _ ?_
                    linarith [not_le.mp q7]
                  · have q8 : ¬(w : ℚ) ≤ 200 := fun hc => h8 (by exact_mod_cast hc)
                    by_cases h9 : w ≤ 205
                    · rw [npInterp_seg9 _ q8 (by exact_mod_cast h9),
                          interpSpec, if_neg h0, if_neg h1, if_neg h2,
                          if_neg h3, if_neg h4, if_neg h5, if_neg h6,
                          if_neg h7, if_neg h8, if_pos h9]
                      refine pyInt_eq_floor _ ?_
                      linarith [not_le.mp q8]
                    · have q9 : ¬(w : ℚ) ≤ 205 := fun hc => h9 (by exact_mod_cast hc)
                      by_cases h10 : w ≤ 210
                      · rw [npInterp_seg10 _ q9 (by exact_mod_cast h10),
                            interpSpec, if_neg h0, if_neg h1, if_neg h2,
                            if_neg h3, if_neg h4, if_neg h5, if_neg h6,
                            if_neg h7, if_neg h8, if_neg h9, if_pos h10]
                        refine pyInt_eq_floor _ ?_
                        linarith [not_le.mp q9]
                      · have q10 : ¬(w : ℚ) ≤ 210 := fun hc => h10 (by exact_mod_cast hc)
                        by_cases h11 : w ≤ 215
                        · rw [npInterp_seg11 _ q10 (by exact_mod_cast h11),
                              interpSpec, if_neg h0, if_neg h1, if_neg h2,
                              if_neg h3, if_neg h4, if_neg h5, if_neg h6,
                              if_neg h7, if_neg h8, if_neg h9, if_neg h10,
                              if_pos h11]
                          refine pyInt_eq_floor _ ?_
                          linarith [not_le.mp q10]
                        · have q11 : ¬(w : ℚ) ≤ 215 := fun hc => h11 (by exact_mod_cast hc)
                          rw [npInterp_seg_right _ q11,
                              interpSpec, if_neg h0, if_neg h1, if_neg h2,
                              if_neg h3, if_neg h4, if_neg h5, if_neg h6,
                              if_neg h7, if_neg h8, if_neg h9, if_neg h10,
                              if_neg h11]
                          exact pyInt_eq_floor _ (by norm_num)

theorem cssWeightSpec_eq_int (w : ℤ) : cssWeightSpec w = cssWeightInt w := by
  unfold cssWeightSpec roundHalfUp interpSpec cssWeightInt
  by_cases h0 : w ≤ 0
  · rw [if_pos h0, if_pos h0]; norm_num
  rw [if_neg h0, if_neg h0]
  by_cases h1 : w ≤ 40
  · rw [if_pos h1, if_pos h1]
    have key : (100 : ℚ) + ((w : ℚ) - 0) * (200 - 100) / (40 - 0) + 1/2
        = ((200 * (w - 0) + 40 * 201 : ℤ) : ℚ) / ((80 : ℕ) : ℚ) := by
      push_cast; ring
    rw [key, Rat.floor_intCast_div_natCast]; norm_num
  rw [if_neg h1, if_neg h1]
  by_cases h2 : w ≤ 50
  · rw [if_pos h2, if_pos h2]
    have key : (200 : ℚ) + ((w : ℚ) - 40) * (300 - 200) / (50 - 40) + 1/2
        = ((200 * (w - 40) + 10 * 401 : ℤ) : ℚ) / ((20 : ℕ) : ℚ) := by
      push_cast; ring
    rw [key, Rat.floor_intCast_div_natCast]; norm_num
  rw [if_neg h2, if_neg h2]
  by_cases h3 : w ≤ 55
  · rw [if_pos h3, if_pos h3]
    have key : (300 : ℚ) + ((w : ℚ) - 50) * (350 - 300) / (55 - 50) + 1/2
        = ((100 * (w - 50) + 5 * 601 : ℤ) : ℚ) / ((10 : ℕ) : ℚ) := by
      push_cast; ring
    rw [key, Rat.floor_intCast_div_natCast]; norm_num
  rw [if_neg h3, if_neg h3]
  by_cases h4 : w ≤ 75
  · rw [if_pos h4, if_pos h4]
    have key : (350 : ℚ) + ((w : ℚ) - 55) * (380 - 350) / (75 - 55) + 1/2
        = ((60 * (w - 55) + 20 * 701 : ℤ) : ℚ) / ((40 : ℕ) : ℚ) := by
      push_cast; ring
    rw [key, Rat.floor_intCast_div_natCast]; norm_num
  rw [if_neg h4, if_neg h4]
  by_cases h5 : w ≤ 80
  · rw [if_pos h5, if_pos h5]
    have key : (380 : ℚ) + ((w : ℚ) - 75) * (400 - 380) / (80 - 75) + 1/2
        = ((40 * (w - 75) + 5 * 761 : ℤ) : ℚ) / ((10 : ℕ) : ℚ) := by
      push_cast; ring
    rw [key, Rat.floor_intCast_div_natCast]; norm_num
  rw [if_neg h5, if_neg h5]
  by_cases h6 : w ≤ 100
  · rw [if_pos h6, if_pos h6]
    have key : (400 : ℚ) + ((w : ℚ) - 80) * (500 - 400) / (100 - 80) + 1/2
        = ((200 * (w - 80) + 20 * 801 : ℤ) : ℚ) / ((40 : ℕ) : ℚ) := by
      push_cast; ring
    rw [key, Rat.floor_intCast_div_natCast]; norm_num
  rw [if_neg h6, if_neg h6]
  by_cases h7 : w ≤ 180
  · rw [if_pos h7, if_pos h7]
    have key : (500 : ℚ) + ((w : ℚ) - 100) * (600 - 500) / (180 - 100) + 1/2
        = ((200 * (w - 100) + 80 * 1001 : ℤ) : ℚ) / ((160 : ℕ) : ℚ) := by
      push_cast; ring
    rw [key, Rat.floor_intCast_div_natCast]; norm_num
  rw [if_neg h7, if_neg h7]
  by_cases h8 : w ≤ 200
  · rw [if_pos h8, if_pos h8]
    have key : (600 : ℚ) + ((w : ℚ) - 180) * (700 - 600) / (200 - 180) + 1/2
        = ((200 * (w - 180) + 20 * 1201 : ℤ) : ℚ) / ((40 : ℕ) : ℚ) := by
      push_cast; ring
    rw [key, Rat.floor_intCast_div_natCast]; norm_num
  rw [if_neg h8, if_neg h8]
  by_cases h9 : w ≤ 205
  · rw [if_pos h9, if_pos h9]
    have key : (700 : ℚ) + ((w : ℚ) - 200) * (800 - 700) / (205 - 200) + 1/2
        = ((200 * (w - 200) + 5 * 1401 : ℤ) : ℚ) / ((10 : ℕ) : ℚ) := by
      push_cast; ring
    rw [key, Rat.floor_intCast_div_natCast]; norm_num
  rw [if_neg h9, if_neg h9]
  by_cases h10 : w ≤ 210
  · rw [if_pos h10, if_pos h10]
    have key : (800 : ℚ) + ((w : ℚ) - 205) * (900 - 800) / (210 - 205) + 1/2
        = ((200 * (w - 205) + 5 * 1601 : ℤ) : ℚ) / ((10 : ℕ) : ℚ) := by
      push_cast; ring
    rw [key, Rat.floor_intCast_div_natCast]; norm_num
  rw [if_neg h10, if_neg h10]
  by_cases h11 : w ≤ 215
  · rw [if_pos h11, if_pos h11]
    have key : (900 : ℚ) + ((w : ℚ) - 210) * (1000 - 900) / (215 - 210) + 1/2
        = ((200 * (w - 210) + 5 * 1801 : ℤ) : ℚ) / ((10 : ℕ) : ℚ) := by
      push_cast; ring
    rw [key, Rat.floor_intCast_div_natCast]; norm_num
  rw [if_neg h11, if_neg h11]
  norm_num

theorem fcWeightToCss_eq_int (w : ℤ) : fcWeightToCss w = cssWeightInt w :=
  (fcWeightToCss_eq_spec w).trans (cssWeightSpec_eq_int w)

set_option maxRecDepth 4000 in
theorem cssWeightInt_step : ∀ n : ℕ, n < 215 →
    cssWeightInt n ≤ cssWeightInt (n + 1) := by
  decide

theorem cssWeightInt_mono_nat (m : ℕ) : ∀ n : ℕ, m ≤ n → n ≤ 215 →
    cssWeightInt m ≤ cssWeightInt n := by
  intro n
  induction n with
  | zero =>
    intro h _
    have hm : m = 0 := Nat.le_zero.mp h
    subst hm
    exact le_rfl
  | succ k ih =>
    intro h h215
    rcases Nat.lt_or_ge m (k + 1) with hlt | hge
    · have h1 : cssWeightInt m ≤ cssWeightInt k := ih (by omega) (by omega)
      have h2 : cssWeightInt k ≤ cssWeightInt (k + 1) :=
        cssWeightInt_step k (by omega)
      calc cssWeightInt (m : ℤ) ≤ cssWeightInt k := h1
        _ ≤ cssWeightInt ((k : ℤ) + 1) := by exact_mod_cast h2
        _ = cssWeightInt ((k + 1 : ℕ) : ℤ) := by push_cast; ring_nf
    · have hm : m = k + 1 := by omega
      subst hm
      exact le_rfl

theorem fcWeightToCss_mono (w1 w2 : ℤ) (hw1 : 0 ≤ w1) (h12 : w1 ≤ w2)
    (hw2 : w2 ≤ 215) : fcWeightToCss w1 ≤ fcWeightToCss w2 := by
  rw [fcWeightToCss_eq_int, fcWeightToCss_eq_int]
  have e1 : w1 = ((w1.toNat : ℕ) : ℤ) := (Int.toNat_of_nonneg hw1).symm
  have e2 : w2 = ((w2.toNat : ℕ) : ℤ) := (Int.toNat_of_nonneg (by omega)).symm
  rw [e1, e2]
  exact cssWeightInt_mono_nat _ _ (by omega) (by omega)

/-! ## Pipeline lemmas: per-line inversion, sort stability, error propagation -/
theorem processLines_nil : processLines [] = .ok [] := rfl

theorem processLines_cons (l : List Char) (ls : List (List Char)) :
    processLines (l :: ls) =
      match processLine l with
      | .error e => .error e
      | .ok es =>
        match processLines ls with
        | .error e => .error e
        | .ok rest => .ok (es ++ rest) := rfl

theorem processLine_ok_shape (line : List Char) (a b c d e' : List Char)
    (es : List FontEntry)
    (hsplit : splitUnescaped ' ' line = [a, b, c, d, e'])
    (hok : processLine line = .ok es) :
    ∃ style rawWeight stretch,
      slantTable c = some style ∧ parsePyInt d = some rawWeight ∧
      stretchTable e' = some stretch ∧
      es = (splitUnescaped ',' (replaceEscaped ' ' b)).map fun fam =>
        { file := (replaceEscaped ' ' a).asString
          family := fam.asString
          style := style
          variant := "normal"
          weight := fcWeightToCss rawWeight
          stretch := stretch
          size := "scalable" } := by
  unfold processLine at hok
  rw [hsplit] at hok
  dsimp only at hok
  cases hst : slantTable c with
  | none => rw [hst] at hok; exact absurd hok (by simp)
  | some style =>
    rw [hst] at hok
    dsimp only at hok
    cases hpw : parsePyInt d with
    | none => rw [hpw] at hok; exact absurd hok (by simp)
    | some rawWeight =>
      rw [hpw] at hok
      dsimp only at hok
      cases hsw : stretchTable e' with
      | none => rw [hsw] at hok; exact absurd hok (by simp)
      | some stretch =>
        rw [hsw] at hok
        dsimp only at hok
        refine ⟨style, rawWeight, stretch, rfl, rfl, rfl, ?_⟩
        simpa using hok.symm

theorem filter_orderedInsert_pos (k : String) (e : FontEntry)
    (l : List FontEntry) (he : e.file = k) :
    (List.orderedInsert entryLE e l).filter (fun x => x.file = k) =
      e :: l.filter (fun x => x.file = k) := by
  induction l with
  | nil => simp [List.orderedInsert, List.filter, he]
  | cons b t ih =>
    by_cases hr : entryLE e b
    · rw [List.orderedInsert, if_pos hr,
          List.filter_cons_of_pos (by simpa using he)]
    · rw [List.orderedInsert, if_neg hr]
      have hbk : ¬ b.file = k := by
        have hlt : b.file < e.file := lt_of_not_le hr
        rw [he] at hlt
        exact ne_of_lt hlt
      rw [List.filter_cons_of_neg (by simpa using hbk), ih,
          List.filter_cons_of_neg (by simpa using hbk)]

theorem filter_orderedInsert_neg (k : String) (e : FontEntry)
    (l : List FontEntry) (he : ¬ e.file = k) :
    (List.orderedInsert entryLE e l).filter (fun x => x.file = k) =
      l.filter (fun x => x.file = k) := by
  induction l with
  | nil => simp [List.orderedInsert, List.filter, he]
  | cons b t ih =>
    by_cases hr : entryLE e b
    · rw [List.orderedInsert, if_pos hr]
      rw [List.filter_cons_of_neg (by simpa using he)]
    · rw [List.orderedInsert, if_neg hr]
      by_cases hbk : b.file = k
      · rw [List.filter_cons_of_pos (by simpa using hbk), ih,
            List.filter_cons_of_pos (by simpa using hbk)]
      · rw [List.filter_cons_of_neg (by simpa using hbk), ih,
            List.filter_cons_of_neg (by simpa using hbk)]

theorem filter_sortEntries (k : String) (es : List FontEntry) :
    (sortEntries es).filter (fun x => x.file = k) =
      es.filter (fun x => x.file = k) := by
  induction es with
  | nil => rfl
  | cons e t ih =>
    unfold sortEntries at *
    rw [List.insertionSort]
    by_cases he : e.file = k
    · rw [filter_orderedInsert_pos k e _ he, ih,
          List.filter_cons_of_pos (by simpa using he)]
    · rw [filter_orderedInsert_neg k e _ he, ih,
          List.filter_cons_of_neg (by simpa using he)]

theorem sortEntries_sorted (es : List FontEntry) :
    List.Sorted entryLE (sortEntries es) :=
  List.sorted_insertionSort entryLE es

theorem processLines_append (xs ys : List (List Char)) (ex ey : List FontEntry)
    (hx : processLines xs = .ok ex) (hy : processLines ys = .ok ey) :
    processLines (xs ++ ys) = .ok (ex ++ ey) := by
  induction xs generalizing ex with
  | nil =>
    rw [processLines_nil] at hx
    cases hx
    simpa using hy
  | cons l t ih =>
    rw [processLines_cons] at hx
    rw [List.cons_append, processLines_cons]
    cases hl : processLine l with
    | error e => rw [hl] at hx; exact absurd hx (by simp)
    | ok els =>
      rw [hl] at hx
      dsimp only at hx ⊢
      cases ht : processLines t with
      | error e => rw [ht] at hx; exact absurd hx (by simp)
      | ok rest =>
        rw [ht] at hx
        cases hx
        rw [ih rest ht]
        simp

theorem processLines_error_of_mem (ls : List (List Char)) (l : List Char)
    (hmem : l ∈ ls) (err0 : PyError) (herr : processLine l = .error err0) :
    ∃ err, processLines ls = .error err := by
  induction ls with
  | nil => cases hmem
  | cons hd t ih =>
    rcases List.mem_cons.mp hmem with heq | htl
    · subst heq
      exact ⟨err0, by rw [processLines_cons, herr]⟩
    · rw [processLines_cons]
      cases hh : processLine hd with
      | error e => exact ⟨e, rfl⟩
      | ok els =>
        rcases ih htl with ⟨e2, he2⟩
        rw [he2]
        exact ⟨e2, rfl⟩

/-! ## Concrete raw lines and their processed entries -/

theorem fcw80 : fcWeightToCss 80 = 400 := by
  rw [fcWeightToCss_eq_int]; decide

/-- A record with two families, the second containing an escaped space:
`f Arial,Arial\ Bold 0 80 100`. -/
def lineArial : List Char := "f Arial,Arial\\ Bold 0 80 100".data

def arialE1 : FontEntry :=
  ⟨"f", "Arial", "normal", "normal", 400, "normal", "scalable"⟩

def arialE2 : FontEntry :=
  ⟨"f", "Arial Bold", "normal", "normal", 400, "normal", "scalable"⟩

def arialEntries : List FontEntry := [arialE1, arialE2]

theorem processLine_lineArial : processLine lineArial = .ok arialEntries := by
  simp [processLine, lineArial, arialEntries, arialE1, arialE2, splitUnescaped,
        splitUnescapedAux, replaceEscaped, slantTable, stretchTable, parsePyInt,
        digitsVal, fcw80]
  decide

/-- A single-family record with file `g`: `g Foo 0 80 100`. -/
def lineG : List Char := "g Foo 0 80 100".data

def gEntry : FontEntry :=
  ⟨"g", "Foo", "normal", "normal", 400, "normal", "scalable"⟩

def gEntries : List FontEntry := [gEntry]

theorem processLine_lineG : processLine lineG = .ok gEntries := by
  simp [processLine, lineG, gEntries, gEntry, splitUnescaped, splitUnescapedAux,
        replaceEscaped, slantTable, stretchTable, parsePyInt, digitsVal, fcw80]
  decide

/-- A second record for file `g` with another family: `g Bar 0 80 100`. -/
def lineG2 : List Char := "g Bar 0 80 100".data

def gEntry2 : FontEntry :=
  ⟨"g", "Bar", "normal", "normal", 400, "normal", "scalable"⟩

def gEntries2 : List FontEntry := [gEntry2]

theorem processLine_lineG2 : processLine lineG2 = .ok gEntries2 := by
  simp [processLine, lineG2, gEntries2, gEntry2, splitUnescaped,
        splitUnescapedAux, replaceEscaped, slantTable, stretchTable, parsePyInt,
        digitsVal, fcw80]
  decide

/-- A record whose family field contains an escaped comma: `f a\,b 0 80 100`. -/
def lineComma : List Char := "f a\\,b 0 80 100".data

def commaEntry : FontEntry :=
  ⟨"f", "a\\,b", "normal", "normal", 400, "normal", "scalable"⟩

def commaEntries : List FontEntry := [commaEntry]

theorem processLine_lineComma : processLine lineComma = .ok commaEntries := by
  simp [processLine, lineComma, commaEntries, commaEntry, splitUnescaped,
        splitUnescapedAux, replaceEscaped, slantTable, stretchTable, parsePyInt,
        digitsVal, fcw80]
  decide

/-- A record whose family field is empty (two consecutive spaces):
`f  0 80 100`. -/
def lineEmptyFam : List Char := "f  0 80 100".data

def emptyFamEntry : FontEntry :=
  ⟨"f", "", "normal", "normal", 400, "normal", "scalable"⟩

def emptyFamEntries : List FontEntry := [emptyFamEntry]

theorem processLine_lineEmptyFam :
    processLine lineEmptyFam = .ok emptyFamEntries := by
  simp [processLine, lineEmptyFam, emptyFamEntries, emptyFamEntry,
        splitUnescaped, splitUnescapedAux, replaceEscaped, slantTable,
        stretchTable, parsePyInt, digitsVal, fcw80]
  decide

/-- A variable-weight record as `fc` prints it (bracketed range, the inner
space unescaped): `f Fam 0 [100 200] 100`. -/
def lineVarWeight : List Char := "f Fam 0 [100 200] 100".data

/-- A 5-field record whose weight field starts with `[`: `f Fam 0 [ 100`. -/
def lineBracket5 : List Char := "f Fam 0 [ 100".data

/-- A record with the unmapped slant code 55: `f Fam 55 80 100`. -/
def lineSlant55 : List Char := "f Fam 55 80 100".data

/-- A record with the unmapped width code 999: `f Fam 0 80 999`. -/
def lineWidth999 : List Char := "f Fam 0 80 999".data

/-! ## Small auxiliary facts -/

theorem replaceEscaped_ne_nil (d : Char) (l : List Char) (hl : l ≠ []) :
    replaceEscaped d l ≠ [] := by
  unfold replaceEscaped
  split
  · split <;> simp
  · simp
  · exact absurd rfl hl

theorem asString_ne_empty (l : List Char) (h : l ≠ []) : l.asString ≠ "" := by
  intro hc
  apply h
  have hd := congrArg String.data hc
  simpa [List.asString] using hd

theorem parsePyInt_bracket_none (d : List Char) (hd : d.head? = some '[') :
    parsePyInt d = none := by
  rcases d with _ | ⟨c, rest⟩
  · simp at hd
  · have hc : c = '[' := by simpa using hd
    subst hc
    simp [parsePyInt]

instance {ε α : Type} [DecidableEq ε] [DecidableEq α] :
    DecidableEq (Except ε α) := fun
  | .error e1, .error e2 => decidable_of_iff (e1 = e2) (by simp)
  | .error _, .ok _ => .isFalse (by simp)
  | .ok _, .error _ => .isFalse (by simp)
  | .ok a, .ok b => decidable_of_iff (a = b) (by simp)

/-! ## Claim theorems -/

/-- C1: for every parsed record the CSS weight is computed from the raw
integer weight by piecewise-linear interpolation through exactly the twelve
correspondence points (0,100), (40,200), (50,300), (55,350), (75,380),
(80,400), (100,500), (180,600), (200,700), (205,800), (210,900), (215,1000),
with raw values outside [0, 215] clamped to the nearest endpoint and the
interpolated value rounded to the nearest integer, ties rounding up; in
particular raw 0 maps to 100, raw 100 to 500, and raw 215 to 1000. -/
theorem C1_weight_mapping_matches_spec :
    (∀ w : ℤ, fcWeightToCss w = cssWeightSpec w) ∧
    fcWeightToCss 0 = 100 ∧ fcWeightToCss 100 = 500 ∧
    fcWeightToCss 215 = 1000 := by
  refine ⟨fcWeightToCss_eq_spec, ?_, ?_, ?_⟩ <;>
    rw [fcWeightToCss_eq_int] <;> decide

/-- C2 counterexample: a record whose weight field is the bracketed list
`[100 200]` does NOT merely get skipped with a diagnostic — the whole run
aborts with a fatal error (the line splits into 6 fields and the 5-variable
unpacking fails), even though a perfectly good record precedes it. -/
theorem C2_counterexample :
    generate_entries [lineG, lineVarWeight] [] =
      .error (.unpackMismatch 6) := by
  decide

/-- C2 amended: a record whose weight field is a bracketed list is not
skipped and produces no diagnostic; it makes the run fail with a fatal
error: a 5-field record whose weight field starts with `[` fails integer
parsing, a record that splits into other than 5 fields fails unpacking,
and any fatally-failing record aborts the whole `generate_entries` run
(no output at all is produced, rather than output without that record). -/
theorem C2_variable_weight_fatal_not_skipped :
    (∀ line a b c d e', splitUnescaped ' ' line = [a, b, c, d, e'] →
        slantTable c ≠ none → d.head? = some '[' →
        processLine line = .error (.intValueError d)) ∧
    (∀ line fs, splitUnescaped ' ' line = fs → fs.length ≠ 5 →
        processLine line = .error (.unpackMismatch fs.length)) ∧
    (∀ vendored system line, line ∈ vendored ++ system →
        (∃ err0, processLine line = .error err0) →
        (generate_entries vendored system).isOk = false) := by
  refine ⟨?_, ?_, ?_⟩
  · intro line a b c d e' hsplit hslant hd
    unfold processLine
    rw [hsplit]
    dsimp only
    rcases Option.ne_none_iff_exists'.mp hslant with ⟨st, hst⟩
    rw [hst]
    dsimp only
    rw [parsePyInt_bracket_none d hd]
  · intro line fs hsplit hlen
    unfold processLine
    rw [hsplit]
    rcases fs with _ | ⟨a, _ | ⟨b, _ | ⟨c, _ | ⟨d, _ | ⟨e', _ | ⟨f, rest⟩⟩⟩⟩⟩⟩ <;>
      first
        | rfl
        | exact absurd rfl hlen
  · intro vendored system line hmem herr0
    rcases herr0 with ⟨err0, herr0⟩
    rcases processLines_error_of_mem (vendored ++ system) line hmem err0 herr0
      with ⟨err, herr⟩
    unfold generate_entries
    rw [herr]
    rfl

/-- C2 witness: the three parts of the amended claim at concrete inputs:
the 5-field bracketed-weight line `f Fam 0 [ 100`, the fc-style
variable-weight line `f Fam 0 [100 200] 100`, and a run containing the
latter after a good record. -/
theorem C2_witness :
    processLine lineBracket5 = .error (.intValueError "[".data) ∧
    processLine lineVarWeight = .error (.unpackMismatch 6) ∧
    (generate_entries [lineG, lineVarWeight] []).isOk = false := by
  refine ⟨?_, ?_, ?_⟩
  · exact C2_variable_weight_fatal_not_skipped.1 lineBracket5
      "f".data "Fam".data "0".data "[".data "100".data (by decide) (by decide)
      (by decide)
  · exact (C2_variable_weight_fatal_not_skipped.2.1 lineVarWeight
      (splitUnescaped ' ' lineVarWeight) rfl (by decide)).trans (by decide)
  · exact C2_variable_weight_fatal_not_skipped.2.2 [lineG, lineVarWeight] []
      lineVarWeight (by decide) ⟨.unpackMismatch 6, by decide⟩

/-- C3 counterexample: the weight mapping at raw weight 60 does not return
355; the interpolated value between (55,350) and (75,380) is
350 + (60-55)/(75-55)*(380-350) = 357.5, not 354.5 as the spec computes. -/
theorem C3_counterexample : fcWeightToCss 60 ≠ 355 := by
  rw [fcWeightToCss_eq_int]; decide

/-- C3 amended: for raw weight 60 the mapping returns 358 (interpolated
value 357.5, ties round up). -/
theorem C3_raw60_maps_to_358 : fcWeightToCss 60 = 358 := by
  rw [fcWeightToCss_eq_int]; decide

/-- C4: the weight mapping is a deterministic function of the raw weight
alone, and on [0, 215] it is monotonically non-decreasing. -/
theorem C4_weight_deterministic_and_monotone :
    (∀ w1 w2 : ℤ, w1 = w2 → fcWeightToCss w1 = fcWeightToCss w2) ∧
    (∀ w1 w2 : ℤ, 0 ≤ w1 → w1 ≤ w2 → w2 ≤ 215 →
      fcWeightToCss w1 ≤ fcWeightToCss w2) :=
  ⟨fun w1 w2 h => by rw [h], fcWeightToCss_mono⟩

/-- C4 witness: determinism and monotonicity instantiated at raw weights
60 and 100. -/
theorem C4_witness :
    fcWeightToCss 60 = fcWeightToCss 60 ∧
    fcWeightToCss 60 ≤ fcWeightToCss 100 :=
  ⟨C4_weight_deterministic_and_monotone.1 60 60 rfl,
   C4_weight_deterministic_and_monotone.2 60 100 (by norm_num) (by norm_num)
     (by norm_num)⟩

/-- C5: the slant mapping sends code 0 to `normal`, 100 to `italic` and 110
to `oblique`; a record whose slant code is not in the table is fatal (the
`KeyError` modelling the spec's `UnknownStyleCode`), and so is a record
whose width code is not in the width table (when slant and weight parse);
unmapped codes are never silently approximated. -/
theorem C5_slant_mapping_unknown_codes_fatal :
    slantTable "0".data = some "normal" ∧
    slantTable "100".data = some "italic" ∧
    slantTable "110".data = some "oblique" ∧
    (∀ line a b c d e', splitUnescaped ' ' line = [a, b, c, d, e'] →
        slantTable c = none → processLine line = .error (.keyError c)) ∧
    (∀ line a b c d e', splitUnescaped ' ' line = [a, b, c, d, e'] →
        slantTable c ≠ none → parsePyInt d ≠ none → stretchTable e' = none →
        processLine line = .error (.keyError e')) := by
  refine ⟨rfl, rfl, rfl, ?_, ?_⟩
  · intro line a b c d e' hsplit hnone
    unfold processLine
    rw [hsplit]
    dsimp only
    rw [hnone]
  · intro line a b c d e' hsplit hslant hweight hwidth
    unfold processLine
    rw [hsplit]
    dsimp only
    rcases Option.ne_none_iff_exists'.mp hslant with ⟨st, hst⟩
    rw [hst]
    dsimp only
    rcases Option.ne_none_iff_exists'.mp hweight with ⟨v, hv⟩
    rw [hv]
    dsimp only
    rw [hwidth]

/-- C5 witness: the record `f Fam 55 80 100` (unmapped slant code 55) and
the record `f Fam 0 80 999` (unmapped width code 999) are both fatal. -/
theorem C5_witness :
    processLine lineSlant55 = .error (.keyError "55".data) ∧
    processLine lineWidth999 = .error (.keyError "999".data) :=
  ⟨C5_slant_mapping_unknown_codes_fatal.2.2.2.1 lineSlant55
     "f".data "Fam".data "55".data "80".data "100".data (by decide) (by decide),
   C5_slant_mapping_unknown_codes_fatal.2.2.2.2 lineWidth999
     "f".data "Fam".data "0".data "80".data "999".data (by decide) (by decide)
     (by decide) (by decide)⟩

/-- C6: a record whose family-list splits into k families yields exactly k
entries, whose family fields are exactly the (space-unescaped) family names
in order, and which agree on every other field (file, style, variant,
weight, stretch, size). -/
theorem C6_family_expansion (line a b c d e' : List Char)
    (es : List FontEntry)
    (hsplit : splitUnescaped ' ' line = [a, b, c, d, e'])
    (hok : processLine line = .ok es) :
    es.length = (splitUnescaped ',' (replaceEscaped ' ' b)).length ∧
    es.map FontEntry.family =
      (splitUnescaped ',' (replaceEscaped ' ' b)).map List.asString ∧
    ∀ e1 ∈ es, ∀ e2 ∈ es,
      e1.file = e2.file ∧ e1.style = e2.style ∧ e1.variant = e2.variant ∧
      e1.weight = e2.weight ∧ e1.stretch = e2.stretch ∧ e1.size = e2.size := by
  obtain ⟨st, rawWeight, sw, _, _, _, hes⟩ :=
    processLine_ok_shape line a b c d e' es hsplit hok
  subst hes
  refine ⟨by simp, by simp, ?_⟩
  intro e1 he1 e2 he2
  obtain ⟨f1, _, rfl⟩ := List.mem_map.mp he1
  obtain ⟨f2, _, rfl⟩ := List.mem_map.mp he2
  exact ⟨rfl, rfl, rfl, rfl, rfl, rfl⟩

/-- C6 witness: the record `f Arial,Arial\ Bold 0 80 100` yields exactly the
two families `Arial` and `Arial Bold`, all other fields equal. -/
theorem C6_witness :
    arialEntries.length = 2 ∧
    arialEntries.map FontEntry.family = ["Arial", "Arial Bold"] ∧
    arialE1.file = arialE2.file ∧ arialE1.style = arialE2.style ∧
    arialE1.variant = arialE2.variant ∧ arialE1.weight = arialE2.weight ∧
    arialE1.stretch = arialE2.stretch ∧ arialE1.size = arialE2.size := by
  have h := C6_family_expansion lineArial "f".data "Arial,Arial\\ Bold".data
    "0".data "80".data "100".data arialEntries (by decide) processLine_lineArial
  refine ⟨?_, ?_, h.2.2 arialE1 (by decide) arialE2 (by decide)⟩
  · rw [h.1]; decide
  · rw [h.2.1]; decide

/-- C7: the output sequence is sorted by the unescaped `file` path (the
lexicographic order on strings), and the sort is stable: for each file key
the entries with that key appear in their parse/expansion order. -/
theorem C7_sorted_by_file_and_stable (vendored system : List (List Char))
    (pre : List FontEntry)
    (h : processLines (vendored ++ system) = .ok pre) :
    generate_entries vendored system = .ok (sortEntries pre) ∧
    List.Sorted entryLE (sortEntries pre) ∧
    ∀ k : String, (sortEntries pre).filter (fun e => e.file = k) =
      pre.filter (fun e => e.file = k) := by
  refine ⟨?_, sortEntries_sorted pre, fun k => filter_sortEntries k pre⟩
  unfold generate_entries
  rw [h]

/-- C7 witness: a run over the records `g Foo 0 80 100` (bundled) and
`f Arial,Arial\ Bold 0 80 100` (system). -/
theorem C7_witness :
    generate_entries [lineG] [lineArial] =
      .ok (sortEntries (gEntries ++ arialEntries)) ∧
    List.Sorted entryLE (sortEntries (gEntries ++ arialEntries)) ∧
    (sortEntries (gEntries ++ arialEntries)).filter (fun e => e.file = "g") =
      (gEntries ++ arialEntries).filter (fun e => e.file = "g") := by
  have h := C7_sorted_by_file_and_stable [lineG] [lineArial]
    (gEntries ++ arialEntries)
    (by simp [processLines_cons, processLines_nil, processLine_lineG,
              processLine_lineArial])
  exact ⟨h.1, h.2.1, h.2.2 "g"⟩

/-- C8 counterexample: escaped commas are NOT unescaped: the record
`f a\,b 0 80 100` yields a single family that still contains the escape
sequence backslash-comma. -/
theorem C8_counterexample :
    processLine lineComma = .ok commaEntries ∧
    commaEntries.map FontEntry.family = ["a\\,b"] ∧
    ['\\', ','] <:+: commaEntry.family.data :=
  ⟨processLine_lineComma, by decide, by decide⟩

/-- C8 amended: after escape-aware splitting, backslash-escaped spaces are
unescaped in the `file` field and in the family field (the latter before it
is split on unescaped commas); backslash-escaped commas are left as they
are, so a family name may retain a literal `\,` sequence. -/
theorem C8_escaped_spaces_unescaped (line a b c d e' : List Char)
    (es : List FontEntry)
    (hsplit : splitUnescaped ' ' line = [a, b, c, d, e'])
    (hok : processLine line = .ok es) :
    (∀ ent ∈ es, ent.file = (replaceEscaped ' ' a).asString) ∧
    es.map FontEntry.family =
      (splitUnescaped ',' (replaceEscaped ' ' b)).map List.asString := by
  obtain ⟨st, rawWeight, sw, _, _, _, hes⟩ :=
    processLine_ok_shape line a b c d e' es hsplit hok
  subst hes
  refine ⟨?_, by simp⟩
  intro ent hent
  obtain ⟨f1, _, rfl⟩ := List.mem_map.mp hent
  rfl

/-- C8 witness: the amended claim at the record `f a\,b 0 80 100`. -/
theorem C8_witness :
    commaEntry.file = (replaceEscaped ' ' "f".data).asString ∧
    commaEntries.map FontEntry.family =
      (splitUnescaped ',' (replaceEscaped ' ' "a\\,b".data)).map
        List.asString := by
  have h := C8_escaped_spaces_unescaped lineComma "f".data "a\\,b".data
    "0".data "80".data "100".data commaEntries (by decide) processLine_lineComma
  exact ⟨h.1 commaEntry (by decide), h.2⟩

/-- C9 counterexample: a record whose family field is empty is processed
successfully and yields an entry whose `family` is the empty string, so it
is not true that every emitted family is non-empty. -/
theorem C9_counterexample :
    processLine lineEmptyFam = .ok emptyFamEntries ∧
    emptyFamEntry ∈ emptyFamEntries ∧ emptyFamEntry.family = "" :=
  ⟨processLine_lineEmptyFam, by decide, rfl⟩

/-- C9 amended: an emitted entry's `file` and `family` are non-empty
provided the record's file field is non-empty and every component of the
comma-split (space-unescaped) family field is non-empty; the code itself
enforces no non-emptiness. -/
theorem C9_nonempty_under_nonempty_fields (line a b c d e' : List Char)
    (es : List FontEntry)
    (hsplit : splitUnescaped ' ' line = [a, b, c, d, e'])
    (hok : processLine line = .ok es)
    (hfile : a ≠ [])
    (hfam : ∀ g ∈ splitUnescaped ',' (replaceEscaped ' ' b), g ≠ []) :
    ∀ ent ∈ es, ent.file ≠ "" ∧ ent.family ≠ "" := by
  obtain ⟨st, rawWeight, sw, _, _, _, hes⟩ :=
    processLine_ok_shape line a b c d e' es hsplit hok
  subst hes
  intro ent hent
  obtain ⟨f1, hf1, rfl⟩ := List.mem_map.mp hent
  exact ⟨asString_ne_empty _ (replaceEscaped_ne_nil ' ' a hfile),
         asString_ne_empty _ (hfam f1 hf1)⟩

/-- C9 witness: the amended claim at the record `f Arial,Arial\ Bold 0 80
100`, whose file field and family components are all non-empty. -/
theorem C9_witness :
    (arialE1.file ≠ "" ∧ arialE1.family ≠ "") ∧
    (arialE2.file ≠ "" ∧ arialE2.family ≠ "") := by
  have h := C9_nonempty_under_nonempty_fields lineArial "f".data
    "Arial,Arial\\ Bold".data "0".data "80".data "100".data arialEntries
    (by decide) processLine_lineArial (by decide) (by decide)
  exact ⟨h arialE1 (by decide), h arialE2 (by decide)⟩

/-- C10: the bundled-font (`fc-query`) lines are concatenated before the
system-catalog (`fc-list`) lines and the final sort is stable, so among
output entries with the same file key every entry derived from the bundled
set precedes every entry derived from the system set. -/
theorem C10_vendored_entries_precede_system (vendored system : List (List Char))
    (ev es : List FontEntry)
    (hv : processLines vendored = .ok ev)
    (hs : processLines system = .ok es) :
    generate_entries vendored system = .ok (sortEntries (ev ++ es)) ∧
    ∀ k : String,
      (sortEntries (ev ++ es)).filter (fun e => e.file = k) =
        ev.filter (fun e => e.file = k) ++ es.filter (fun e => e.file = k) := by
  refine ⟨?_, fun k => ?_⟩
  · unfold generate_entries
    rw [processLines_append vendored system ev es hv hs]
  · rw [filter_sortEntries, List.filter_append]

/-- C10 witness: two records for the same file `g`, one from the bundled
query (`g Foo 0 80 100`) and one from the system query (`g Bar 0 80 100`). -/
theorem C10_witness :
    generate_entries [lineG] [lineG2] =
      .ok (sortEntries (gEntries ++ gEntries2)) ∧
    (sortEntries (gEntries ++ gEntries2)).filter (fun e => e.file = "g") =
      gEntries.filter (fun e => e.file = "g") ++
        gEntries2.filter (fun e => e.file = "g") := by
  have h := C10_vendored_entries_precede_system [lineG] [lineG2]
    gEntries gEntries2
    (by simp [processLines_cons, processLines_nil, processLine_lineG])
    (by simp [processLines_cons, processLines_nil, processLine_lineG2])
  exact ⟨h.1, h.2 "g"⟩
